import Mathlib

/-!
Verification of the ncmdump.rs decode engine against its specification.

The definitions below are a shallow embedding of the Rust sources:
* `crates/ncmdump/src/qmcdump.rs` — the substitution-stream (QMC) decoder;
* `src/main.rs` — the legacy CLI (format sniffer `Wrapper::from_path`,
  work-list builder `NcmdumpCli::get_info`);
* `crates/ncmdump-bin/src/main.rs` — the worker CLI (`Program::dump`,
  `Program::dump_data`, `Program::start`).

Bytes are modelled as `Nat` (the Rust `u8` values, always < 256); byte
buffers and streams as `List Nat`; fallible operations return `Except`.
-/

namespace NcmdumpRs

/-- The fixed 256-byte substitution table `KEY` from
`crates/ncmdump/src/qmcdump.rs`, embedded at build time. -/
def KEY : List Nat := [
  0x77, 0x48, 0x32, 0x73, 0xDE, 0xF2, 0xC0, 0xC8, 0x95, 0xEC, 0x30, 0xB2, 0x51, 0xC3, 0xE1, 0xA0,
  0x9E, 0xE6, 0x9D, 0xCF, 0xFA, 0x7F, 0x14, 0xD1, 0xCE, 0xB8, 0xDC, 0xC3, 0x4A, 0x67, 0x93, 0xD6,
  0x28, 0xC2, 0x91, 0x70, 0xCA, 0x8D, 0xA2, 0xA4, 0xF0, 0x08, 0x61, 0x90, 0x7E, 0x6F, 0xA2, 0xE0,
  0xEB, 0xAE, 0x3E, 0xB6, 0x67, 0xC7, 0x92, 0xF4, 0x91, 0xB5, 0xF6, 0x6C, 0x5E, 0x84, 0x40, 0xF7,
  0xF3, 0x1B, 0x02, 0x7F, 0xD5, 0xAB, 0x41, 0x89, 0x28, 0xF4, 0x25, 0xCC, 0x52, 0x11, 0xAD, 0x43,
  0x68, 0xA6, 0x41, 0x8B, 0x84, 0xB5, 0xFF, 0x2C, 0x92, 0x4A, 0x26, 0xD8, 0x47, 0x6A, 0x7C, 0x95,
  0x61, 0xCC, 0xE6, 0xCB, 0xBB, 0x3F, 0x47, 0x58, 0x89, 0x75, 0xC3, 0x75, 0xA1, 0xD9, 0xAF, 0xCC,
  0x08, 0x73, 0x17, 0xDC, 0xAA, 0x9A, 0xA2, 0x16, 0x41, 0xD8, 0xA2, 0x06, 0xC6, 0x8B, 0xFC, 0x66,
  0x34, 0x9F, 0xCF, 0x18, 0x23, 0xA0, 0x0A, 0x74, 0xE7, 0x2B, 0x27, 0x70, 0x92, 0xE9, 0xAF, 0x37,
  0xE6, 0x8C, 0xA7, 0xBC, 0x62, 0x65, 0x9C, 0xC2, 0x08, 0xC9, 0x88, 0xB3, 0xF3, 0x43, 0xAC, 0x74,
  0x2C, 0x0F, 0xD4, 0xAF, 0xA1, 0xC3, 0x01, 0x64, 0x95, 0x4E, 0x48, 0x9F, 0xF4, 0x35, 0x78, 0x95,
  0x7A, 0x39, 0xD6, 0x6A, 0xA0, 0x6D, 0x40, 0xE8, 0x4F, 0xA8, 0xEF, 0x11, 0x1D, 0xF3, 0x1B, 0x3F,
  0x3F, 0x07, 0xDD, 0x6F, 0x5B, 0x19, 0x30, 0x19, 0xFB, 0xEF, 0x0E, 0x37, 0xF0, 0x0E, 0xCD, 0x16,
  0x49, 0xFE, 0x53, 0x47, 0x13, 0x1A, 0xBD, 0xA4, 0xF1, 0x40, 0x19, 0x60, 0x0E, 0xED, 0x68, 0x09,
  0x06, 0x5F, 0x4D, 0xCF, 0x3D, 0x1A, 0xFE, 0x20, 0x77, 0xE4, 0xD9, 0xDA, 0xF9, 0xA4, 0x2B, 0x76,
  0x1C, 0x71, 0xDB, 0x00, 0xBC, 0xFD, 0x0C, 0x6C, 0xA5, 0x47, 0xF7, 0xF6, 0x00, 0x79, 0x4A, 0x11]

/-- The local binding `v` of `QmcDump::map_l`: `value` when `value ≤ 0x7FFF`,
else `value % 0x7FFF`. -/
def map_l_v (value : Nat) : Nat :=
  if value > 0x7FFF then value % 0x7FFF else value

/-- `QmcDump::map_l` from `qmcdump.rs`: the keystream byte for an absolute
offset, `KEY[(v*v + 80923) % 256]`.  (The Rust index is in bounds, so
`List.getD _ _ 0` coincides with the array access.) -/
def map_l (value : Nat) : Nat :=
  KEY.getD ((map_l_v value * map_l_v value + 80923) % 256) 0

/-- `QmcDump::encrypt` from `qmcdump.rs`: XOR the byte at buffer index `i`
with `map_l (offset + i)`.  The recursion carries the absolute offset, so the
head byte of each step is XORed with its own absolute offset's key byte. -/
def encrypt : Nat → List Nat → List Nat
  | _, [] => []
  | offset, byte :: rest => (byte ^^^ map_l offset) :: encrypt (offset + 1) rest

/-- The `QmcDump` wrapper state: the underlying reader (modelled as the list
of bytes not yet consumed) and the absolute-offset cursor. -/
structure QmcDump where
  reader : List Nat
  cursor : Nat
deriving DecidableEq

/-- `QmcDump::from_reader`: wraps a reader with cursor 0. -/
def QmcDump.from_reader (reader : List Nat) : QmcDump :=
  { reader := reader, cursor := 0 }

/-- The `Read::read` impl for `QmcDump`: the underlying read yields
`min n remaining` bytes, those bytes are encrypted at the current cursor, and
the cursor advances by the number of bytes read.  (The Rust encrypts the whole
caller buffer, but only the first `size` bytes are the produced data; the
model applies the keystream to exactly the produced chunk.) -/
def QmcDump.read (d : QmcDump) (n : Nat) : List Nat × QmcDump :=
  let chunk := d.reader.take n
  (encrypt d.cursor chunk, { reader := d.reader.drop n, cursor := d.cursor + chunk.length })

theorem encrypt_length (offset : Nat) (buffer : List Nat) :
    (encrypt offset buffer).length = buffer.length := by
  induction buffer generalizing offset with
  | nil => rfl
  | cons b rest ih => simp [encrypt, ih]

theorem encrypt_append (xs ys : List Nat) (offset : Nat) :
    encrypt offset (xs ++ ys) = encrypt offset xs ++ encrypt (offset + xs.length) ys := by
  induction xs generalizing offset with
  | nil => simp [encrypt]
  | cons b rest ih =>
      simp only [List.cons_append, encrypt, List.length_cons, List.append_eq]
      rw [ih]
      have h : offset + 1 + rest.length = offset + (rest.length + 1) := by omega
      rw [h]

/-- **C1.** For every byte sequence and every offset, applying the
substitution-stream transform twice at the same absolute offset returns the
original bytes: `encrypt o (encrypt o b) = b`. -/
theorem c1_encrypt_involution (offset : Nat) (buffer : List Nat) :
    encrypt offset (encrypt offset buffer) = buffer := by
  induction buffer generalizing offset with
  | nil => rfl
  | cons b rest ih => simp [encrypt, ih, Nat.xor_cancel_right]

/-- **C3.** Concrete keystream and transform values, including recovery of
the two codec magics from the ContainerB magic prefixes. -/
theorem c3_known_values :
    map_l 0x99 = 146 ∧ map_l 0x8FFF = 195 ∧
    encrypt 0 [0x00, 0x01, 0x02, 0x03] = [0xC3, 0x4B, 0xD4, 0xC9] ∧
    encrypt 0x7FFF [0x00, 0x01, 0x02, 0x03] = [0x4A, 0x4B, 0xD4, 0xC9] ∧
    encrypt 0 [0xA5, 0x06, 0xB7, 0x89] = [0x66, 0x4C, 0x61, 0x43] ∧
    encrypt 0 [0x8A, 0x0E, 0xE5] = [0x49, 0x44, 0x33] := by
  decide

/-- **C2.** The transform is chunking-invariant: transforming the first `k`
bytes at offset 0 and the rest at offset `k` equals transforming the whole
buffer at offset 0; and each `QmcDump` read applies the keystream anchored at
the cursor value before the read and advances the cursor by the number of
bytes actually produced. -/
theorem c2_chunking_invariance (b : List Nat) (k : Nat) (hk : k ≤ b.length)
    (d : QmcDump) (n : Nat) :
    encrypt 0 (b.take k) ++ encrypt k (b.drop k) = encrypt 0 b ∧
    (d.read n).1 = encrypt d.cursor (d.reader.take n) ∧
    (d.read n).2.cursor = d.cursor + ((d.read n).1).length := by
  refine ⟨?_, rfl, ?_⟩
  · have h := encrypt_append (b.take k) (b.drop k) 0
    rw [List.take_append_drop] at h
    rw [h]
    have hl : (b.take k).length = k := by
      rw [List.length_take, Nat.min_eq_left hk]
    rw [hl, Nat.zero_add]
  · simp [QmcDump.read, encrypt_length]

theorem c2_chunking_invariance_witness :
    2 ≤ ([0x00, 0x01, 0x02, 0x03] : List Nat).length ∧
    (encrypt 0 (([0x00, 0x01, 0x02, 0x03] : List Nat).take 2) ++
        encrypt 2 (([0x00, 0x01, 0x02, 0x03] : List Nat).drop 2) =
      encrypt 0 [0x00, 0x01, 0x02, 0x03] ∧
    ((QmcDump.mk [0x05, 0x06] 3).read 2).1 =
      encrypt (QmcDump.mk [0x05, 0x06] 3).cursor (([0x05, 0x06] : List Nat).take 2) ∧
    ((QmcDump.mk [0x05, 0x06] 3).read 2).2.cursor =
      (QmcDump.mk [0x05, 0x06] 3).cursor + (((QmcDump.mk [0x05, 0x06] 3).read 2).1).length) :=
  ⟨by decide, c2_chunking_invariance [0x00, 0x01, 0x02, 0x03] 2 (by decide)
    (QmcDump.mk [0x05, 0x06] 3) 2⟩

/-! ## Format sniffer, from `src/main.rs` (`Wrapper::from_path`) -/

/-- The container kinds the sniffer distinguishes (`FileType` in both CLIs). -/
inductive FileType
  | Ncm
  | Qmc
  | Other
deriving DecidableEq

/-- The 8-byte ContainerA (NCM) magic. -/
def NCM_MAGIC : List Nat := [0x43, 0x54, 0x45, 0x4E, 0x46, 0x44, 0x41, 0x4D]

/-- The 4-byte ContainerB magic prefix that decrypts to the lossless magic. -/
def QMC_MAGIC_FLAC : List Nat := [0xA5, 0x06, 0xB7, 0x89]

/-- The 3-byte ContainerB magic prefix that decrypts to the lossy magic. -/
def QMC_MAGIC_MP3 : List Nat := [0x8A, 0x0E, 0xE5]

/-- `Wrapper::from_path` from `src/main.rs`, restricted to its format
classification: read the first 8 bytes of the stream; if fewer than 8 bytes
can be read the kind is `Other`; otherwise match the 8-byte head against the
full NCM magic, then the two QMC magic prefixes (the Rust wildcard patterns
`[0xA5,0x06,0xB7,0x89,_,_,_,_]` and `[0x8A,0x0E,0xE5,_,_,_,_,_]` constrain
only the leading 4 resp. 3 bytes). -/
def from_path (s : List Nat) : FileType :=
  if 8 ≤ s.length then
    if s.take 8 = NCM_MAGIC then FileType.Ncm
    else if s.take 4 = QMC_MAGIC_FLAC then FileType.Qmc
    else if s.take 3 = QMC_MAGIC_MP3 then FileType.Qmc
    else FileType.Other
  else FileType.Other

theorem take_of_take_eq (s t : List Nat) (m n : Nat) (hmn : m ≤ n)
    (h : s.take n = t) : s.take m = t.take m := by
  rw [← h, List.take_take, Nat.min_eq_left hmn]

/-- **C4.** The sniffer returns `Ncm` exactly on the 8-byte NCM magic, `Qmc`
exactly when the head starts with one of the two QMC magic prefixes, and
`Other` otherwise — in particular whenever fewer than 8 bytes can be read. -/
theorem c4_sniffer (s : List Nat) :
    (from_path s = FileType.Ncm ↔ 8 ≤ s.length ∧ s.take 8 = NCM_MAGIC) ∧
    (from_path s = FileType.Qmc ↔
      8 ≤ s.length ∧ (s.take 4 = QMC_MAGIC_FLAC ∨ s.take 3 = QMC_MAGIC_MP3)) ∧
    (from_path s = FileType.Other ↔
      ¬ (8 ≤ s.length) ∨
        (s.take 8 ≠ NCM_MAGIC ∧ s.take 4 ≠ QMC_MAGIC_FLAC ∧ s.take 3 ≠ QMC_MAGIC_MP3)) := by
  by_cases hlen : 8 ≤ s.length
  · by_cases hn : s.take 8 = NCM_MAGIC
    · have h4 : s.take 4 = [0x43, 0x54, 0x45, 0x4E] :=
        take_of_take_eq s NCM_MAGIC 4 8 (by omega) hn
      have h3 : s.take 3 = [0x43, 0x54, 0x45] :=
        take_of_take_eq s NCM_MAGIC 3 8 (by omega) hn
      simp [from_path, hlen, hn, h4, h3, QMC_MAGIC_FLAC, QMC_MAGIC_MP3]
    · by_cases hq1 : s.take 4 = QMC_MAGIC_FLAC
      · have h3 : s.take 3 = [0xA5, 0x06, 0xB7] :=
          take_of_take_eq s QMC_MAGIC_FLAC 3 4 (by omega) hq1
        simp [from_path, hlen, hn, hq1, h3, QMC_MAGIC_MP3]
      · by_cases hq2 : s.take 3 = QMC_MAGIC_MP3
        · simp [from_path, hlen, hn, hq1, hq2]
        · simp [from_path, hlen, hn, hq1, hq2]
  · simp [from_path, hlen]

/-! ## `Program::dump_data`, from `crates/ncmdump-bin/src/main.rs` -/

/-- The per-item error cases of `DumpError` that `Program::dump_data` raises
and `Program::dump` downcasts: `Format` (magic mismatch or short read of the
extension buffer) and `Exists` (output path present without `--force`).
Modelled from the spec: the `DumpError` enum itself lives in the crate's
`errors` module, which is not among the given sources; its two constructors
are exactly the ones `main.rs` constructs. -/
inductive DumpError
  | Format
  | Exists
deriving DecidableEq

/-- The extension match of `Program::dump_data` on the first 4 decrypted
bytes: the lossless magic `fLaC` yields `flac`, the lossy magic prefix `ID3`
(first three bytes, fourth arbitrary) yields `mp3`, anything else (including
a buffer shorter than 4 bytes) matches no pattern. -/
def extOf : List Nat → Option String
  | [0x66, 0x4C, 0x61, 0x43] => some "flac"
  | [0x49, 0x44, 0x33, _] => some "mp3"
  | _ => none

/-- `Program::dump_data` from `crates/ncmdump-bin/src/main.rs`, modelled over
the decrypted stream `source` and the state `fs` of the output path (`none`
when no file exists there, `some c` when a file with bytes `c` does).
Returns the dump result together with the resulting output-path state.
The source's order of effects is kept: the 4-byte extension check fails
(`DumpError::Format`) before the output file is opened or created, and the
pre-existence check fails (`DumpError::Exists`) unless `force` is set; only
after both does the file get created/truncated and the decrypted bytes
written.  The model covers the path where the dumper carries no tag
(`source.get_tag()` errs — the ContainerB path), so the bytes written are
exactly the decrypted stream. -/
def dump_data (source : List Nat) (force : Bool) (fs : Option (List Nat)) :
    Except DumpError Unit × Option (List Nat) :=
  if source.length < 4 then (Except.error DumpError.Format, fs)
  else
    match extOf (source.take 4) with
    | none => (Except.error DumpError.Format, fs)
    | some _ =>
      match fs, force with
      | none, _ => (Except.ok (), some source)
      | some _, true => (Except.ok (), some source)
      | some _, false => (Except.error DumpError.Exists, fs)

/-- **C5.** A stream whose decrypted first 4 bytes match neither codec magic
yields `DumpError::Format`, and the output-path state is left untouched — in
particular no output file is created. -/
theorem c5_format_rejection (source : List Nat) (force : Bool)
    (fs : Option (List Nat)) (h : extOf (source.take 4) = none) :
    dump_data source force fs = (Except.error DumpError.Format, fs) := by
  unfold dump_data
  split
  · rfl
  · rw [h]

theorem c5_format_rejection_witness :
    extOf (([0x01, 0x02, 0x03, 0x04] : List Nat).take 4) = none ∧
    dump_data [0x01, 0x02, 0x03, 0x04] false none =
      (Except.error DumpError.Format, none) :=
  ⟨by decide, c5_format_rejection [0x01, 0x02, 0x03, 0x04] false none (by decide)⟩

theorem length_eq_of_extOf_isSome (l : List Nat) (h : (extOf l).isSome) :
    l.length = 4 := by
  rw [extOf.eq_def] at h
  split at h
  · rfl
  · rfl
  · simp at h

/-- The output-write step of the legacy `NcmdumpCli::dump` from `src/main.rs`
(lines 206-217): after the extension match on the first 4 decoded bytes
succeeds, the output path is opened with
`File::options().create(true).write(true).read(true)` — the legacy `Command`
has no overwrite flag, the code performs no existence check, and the options
carry no `truncate` — and the decoded bytes are written from position 0.
Writing without truncation overwrites an existing file in place, so any tail
of a longer pre-existing file beyond the new data's length survives.  (The
source slices `data[..4]`, which panics on a dump shorter than 4 bytes; the
model covers the non-panicking paths by taking the first 4 bytes.) -/
def legacy_dump (data : List Nat) (fs : Option (List Nat)) :
    Except DumpError (Option (List Nat)) :=
  match extOf (data.take 4) with
  | none => Except.error DumpError.Format
  | some _ =>
    match fs with
    | none => Except.ok (some data)
    | some old => Except.ok (some (data ++ old.drop data.length))

/-- **C7, counterexample.** The claim also covers the legacy
`NcmdumpCli::dump` (`src/main.rs:212-217`), which has no overwrite flag: with
no flag set, dumping a valid stream onto an existing output path does *not*
raise an `OutputExistsError` — it succeeds — and the existing file's bytes
are not left unchanged: they are overwritten in place (here the pre-existing
6-byte file keeps only its tail beyond the 4 new bytes). -/
theorem c7_counterexample :
    legacy_dump [0x66, 0x4C, 0x61, 0x43]
        (some [0x01, 0x02, 0x03, 0x04, 0x05, 0x06]) =
      Except.ok (some [0x66, 0x4C, 0x61, 0x43, 0x05, 0x06]) ∧
    ([0x66, 0x4C, 0x61, 0x43, 0x05, 0x06] : List Nat) ≠
      [0x01, 0x02, 0x03, 0x04, 0x05, 0x06] :=
  ⟨rfl, by decide⟩

/-- **C7, amended.** For the worker CLI (`Program::dump_data`), when the
output path already exists: without `--force` the dump yields
`DumpError::Exists` and the existing bytes are unchanged; with `--force` the
file is truncated and replaced by the newly decoded bytes.  The legacy CLI
(`NcmdumpCli::dump`), which has no overwrite flag, performs no existence
check at all: it succeeds and overwrites the existing file in place without
truncation, the new bytes replacing the old ones positionally (a longer
pre-existing file keeps its tail). -/
theorem c7_output_collision (source : List Nat) (c : List Nat)
    (h : (extOf (source.take 4)).isSome) :
    dump_data source false (some c) = (Except.error DumpError.Exists, some c) ∧
    dump_data source true (some c) = (Except.ok (), some source) ∧
    legacy_dump source (some c) =
      Except.ok (some (source ++ c.drop source.length)) := by
  have hlen : ¬ source.length < 4 := by
    intro hshort
    have h4 : (source.take 4).length = 4 := length_eq_of_extOf_isSome _ h
    rw [List.length_take] at h4
    omega
  obtain ⟨e, he⟩ := Option.isSome_iff_exists.mp h
  refine ⟨?_, ?_, ?_⟩
  · unfold dump_data
    rw [if_neg hlen, he]
  · unfold dump_data
    rw [if_neg hlen, he]
  · unfold legacy_dump
    rw [he]

theorem c7_output_collision_witness :
    (extOf (([0x66, 0x4C, 0x61, 0x43, 0x09] : List Nat).take 4)).isSome ∧
    (dump_data [0x66, 0x4C, 0x61, 0x43, 0x09] false (some [0x07, 0x08]) =
        (Except.error DumpError.Exists, some [0x07, 0x08]) ∧
      dump_data [0x66, 0x4C, 0x61, 0x43, 0x09] true (some [0x07, 0x08]) =
        (Except.ok (), some [0x66, 0x4C, 0x61, 0x43, 0x09]) ∧
      legacy_dump [0x66, 0x4C, 0x61, 0x43, 0x09] (some [0x07, 0x08]) =
        Except.ok (some ([0x66, 0x4C, 0x61, 0x43, 0x09] ++
          ([0x07, 0x08] : List Nat).drop
            ([0x66, 0x4C, 0x61, 0x43, 0x09] : List Nat).length))) :=
  ⟨by decide, c7_output_collision [0x66, 0x4C, 0x61, 0x43, 0x09] [0x07, 0x08] (by decide)⟩

/-! ## `QmcDump::get_data`, from `crates/ncmdump/src/qmcdump.rs` -/

/-- The body of `QmcDump::get_data`'s `while let Ok(size) = self.read(..)`
loop.  The underlying reader is modelled as the list of results of its
successive read calls: `Except.ok chunk` for a read producing `chunk`,
`Except.error ()` for a failing read; an exhausted list reads 0 bytes.
An `Ok(0)` read breaks the loop, an `Err` read exits the `while let`, and a
successful read appends the chunk decrypted at the current cursor. -/
def get_data_loop : Nat → List (Except Unit (List Nat)) → List Nat
  | _, [] => []
  | _, Except.error _ :: _ => []
  | cursor, Except.ok chunk :: rest =>
    if chunk.length = 0 then []
    else encrypt cursor chunk ++ get_data_loop (cursor + chunk.length) rest

/-- `QmcDump::get_data`: runs the read loop and returns `Ok(output)` — the
only `?` inside the loop is `output.write_all`, which cannot fail on a
`Vec<u8>`, so the function's result is always `Ok`. -/
def get_data (cursor : Nat) (reads : List (Except Unit (List Nat))) :
    Except Unit (List Nat) :=
  Except.ok (get_data_loop cursor reads)

/-- **C9.** A mid-stream read error is swallowed: `get_data` over a reader
that yields some chunks and then fails returns `Ok` with exactly the bytes
decoded before the failure (everything after the error is never read), and
the error itself is never surfaced. -/
theorem c9_error_swallowed (cursor : Nat) (chunks : List (List Nat))
    (rest : List (Except Unit (List Nat))) :
    get_data cursor (chunks.map Except.ok ++ Except.error () :: rest) =
      Except.ok (get_data_loop cursor (chunks.map Except.ok)) := by
  unfold get_data
  congr 1
  induction chunks generalizing cursor with
  | nil => rfl
  | cons c cs ih =>
      simp only [List.map_cons, List.cons_append, get_data_loop, List.append_eq]
      split
      · rfl
      · rw [ih]

/-! ## Dispatch pipeline, from `crates/ncmdump-bin/src/main.rs`
(`Program::dump`, the worker loop of `Program::start`) -/

/-- One unit of pipeline work: the decrypted stream the dumper would produce
for the input, the state of its output path, and whether reading the input
fails with an I/O error (`File::open` or a mid-`read` `io::Error`, both of
which `dump_data` returns as a plain wrapped I/O error, not a `DumpError`). -/
structure WorkItem where
  source : List Nat
  target : Option (List Nat)
  ioFail : Bool
deriving DecidableEq

/-- Whether a `dump_data` result is a failure (the `DumpError` arm). -/
def is_dump_failure (r : Except DumpError Unit) : Bool :=
  match r with
  | Except.ok _ => false
  | Except.error _ => true

/-- `Program::dump`: runs `dump_data` and inspects the error.  An error that
downcasts to `DumpError` is caught — a warning line is printed only in
verbose mode — and the function returns `Ok`; any other error (in particular
a wrapped `io::Error`) is returned as-is.  The `Ok` payload records the
resulting output-path state and whether a warning was printed. -/
def prog_dump (verbose force : Bool) (it : WorkItem) :
    Except Unit (Option (List Nat) × Bool) :=
  if it.ioFail then Except.error ()
  else
    match dump_data it.source force it.target with
    | (Except.ok _, fs) => Except.ok (fs, false)
    | (Except.error _, fs) => Except.ok (fs, verbose)

/-- The consumer loop of `Program::start`
(`while let Ok(w) = rx.recv() { state.dump(&w)?; }`), with the queue
contents as a list in delivery order and a single worker (the default
`--worker 1`): each item is dumped in turn, and the `?` aborts the loop —
and with it the run, via `task.join().unwrap()?` — on the first error that
`Program::dump` did not catch. -/
def worker_loop (verbose force : Bool) :
    List WorkItem → Except Unit (List (Option (List Nat) × Bool))
  | [] => Except.ok []
  | it :: rest =>
    match prog_dump verbose force it with
    | Except.error e => Except.error e
    | Except.ok r =>
      match worker_loop verbose force rest with
      | Except.error e => Except.error e
      | Except.ok rs => Except.ok (r :: rs)

/-- A well-formed item whose decode succeeds and writes its output. -/
def itemFlac : WorkItem :=
  { source := [0x66, 0x4C, 0x61, 0x43, 0x01], target := none, ioFail := false }

/-- A malformed item: its decrypted head matches neither codec magic. -/
def itemBad : WorkItem :=
  { source := [0x00, 0x01, 0x02, 0x03], target := none, ioFail := false }

/-- An item whose input fails with an I/O error while being read. -/
def itemIo : WorkItem :=
  { source := [0x66, 0x4C, 0x61, 0x43, 0x01], target := none, ioFail := true }

/-- **C6, counterexample.** A batch of two files where the first fails with
an I/O error scoped to that item and the second is well-formed: the worker
is aborted by the uncaught I/O error, so the run does not complete, the
well-formed file is never decoded or written, and no failure is reported —
contradicting the claim that any of a format, output-collision, or I/O
failure is caught by the worker and the rest of the batch still proceeds.
(The second conjunct shows the second item alone is well-formed.) -/
theorem c6_counterexample :
    worker_loop true false [itemIo, itemFlac] = Except.error () ∧
    prog_dump true false itemFlac =
      Except.ok (some [0x66, 0x4C, 0x61, 0x43, 0x01], false) :=
  ⟨rfl, rfl⟩

/-- **C6, amended.** For every batch whose per-item failures are format or
output-collision failures (`DumpError`, with no item-scoped I/O failure),
the run completes: every item is processed, each well-formed file's output
is written as `dump_data` dictates, and (in verbose mode) exactly one
warning is reported per failing item and none for a succeeding one. -/
theorem c6_pipeline_isolation (force : Bool) (items : List WorkItem)
    (h : items.map WorkItem.ioFail = List.replicate items.length false) :
    worker_loop true force items =
      Except.ok (items.map fun it =>
        ((dump_data it.source force it.target).2,
          is_dump_failure (dump_data it.source force it.target).1)) := by
  induction items with
  | nil => rfl
  | cons it rest ih =>
      simp only [List.map_cons, List.length_cons, List.replicate_succ,
        List.cons.injEq] at h
      rcases hdd : dump_data it.source force it.target with ⟨r, fs⟩
      cases r with
      | ok u =>
          simp [worker_loop, prog_dump, h.1, hdd, ih h.2, is_dump_failure]
      | error e =>
          simp [worker_loop, prog_dump, h.1, hdd, ih h.2, is_dump_failure]

theorem c6_pipeline_isolation_witness :
    ([itemFlac, itemBad].map WorkItem.ioFail =
        List.replicate [itemFlac, itemBad].length false) ∧
    worker_loop true false [itemFlac, itemBad] =
      Except.ok [(some [0x66, 0x4C, 0x61, 0x43, 0x01], false), (none, true)] :=
  ⟨rfl, (c6_pipeline_isolation false [itemFlac, itemBad] rfl).trans rfl⟩

/-! ## Unrecognized inputs, from `src/main.rs` (`NcmdumpCli::get_info`) and
`crates/ncmdump-bin/src/main.rs` (`Program::dump`'s decoder dispatch) -/

/-- `NcmdumpCli::get_info` from `src/main.rs`, over the streams of the
candidate files: builds the work list, keeping an item exactly when its
sniffed format is not `Other` (the `FileType::Other => {}` arm drops it).
The second component collects the diagnostic lines the loop emits about
dropped files — the source prints nothing in that arm, so nothing is ever
appended. -/
def get_info : List (List Nat) → List (List Nat) × List String
  | [] => ([], [])
  | s :: rest =>
    let r := get_info rest
    match from_path s with
    | FileType.Other => r
    | _ => (s :: r.1, r.2)

/-- The two decoders a stream can be handed to. -/
inductive Decoder
  | ncm
  | qmc
deriving DecidableEq

/-- The dispatch of `Program::dump` (`crates/ncmdump-bin/src/main.rs`): the
`Ncm` and `Qmc` kinds construct the corresponding decoder; `Other` returns
`DumpError::Format` before any decoder is constructed. -/
def choose_decoder : FileType → Except DumpError Decoder
  | FileType.Ncm => Except.ok Decoder.ncm
  | FileType.Qmc => Except.ok Decoder.qmc
  | FileType.Other => Except.error DumpError.Format

theorem get_info_reports_nil (paths : List (List Nat)) :
    (get_info paths).2 = [] := by
  induction paths with
  | nil => rfl
  | cons p rest ih =>
      simp only [get_info]
      cases hp : from_path p <;> simp [hp, ih]

theorem get_info_not_mem (paths : List (List Nat)) (s : List Nat)
    (h : from_path s = FileType.Other) : s ∉ (get_info paths).1 := by
  induction paths with
  | nil => simp [get_info]
  | cons p rest ih =>
      simp only [get_info]
      cases hp : from_path p with
      | Other => exact ih
      | Ncm =>
          simp only [List.mem_cons]
          rintro (rfl | hmem)
          · rw [h] at hp
            exact FileType.noConfusion hp
          · exact ih hmem
      | Qmc =>
          simp only [List.mem_cons]
          rintro (rfl | hmem)
          · rw [h] at hp
            exact FileType.noConfusion hp
          · exact ih hmem

/-- **C8, counterexample.** An unrecognized input (8 zero bytes) is dropped
by the legacy CLI's `get_info` with no diagnostic produced: the work list is
empty and so is the report list — it is silently skipped, not reported as a
format error, contradicting the claim's reporting requirement. -/
theorem c8_counterexample :
    from_path (List.replicate 8 0) = FileType.Other ∧
    get_info [List.replicate 8 0] = ([], []) :=
  ⟨rfl, rfl⟩

/-- **C8, amended.** An input classified `Other` is never passed to either
decoder: the legacy CLI's `get_info` never places it in the work list — but
it emits no diagnostic either (silent skip) — and the worker CLI's dispatch
returns a format error before constructing a decoder (reported only in
verbose mode, as a caught warning). -/
theorem c8_unrecognized_isolation (paths : List (List Nat)) (s : List Nat)
    (h : from_path s = FileType.Other) :
    s ∉ (get_info paths).1 ∧ (get_info paths).2 = [] ∧
    choose_decoder (from_path s) = Except.error DumpError.Format := by
  refine ⟨get_info_not_mem paths s h, get_info_reports_nil paths, ?_⟩
  rw [h]
  rfl

theorem c8_unrecognized_isolation_witness :
    from_path (List.replicate 8 0) = FileType.Other ∧
    ((List.replicate 8 0) ∉ (get_info [NCM_MAGIC, List.replicate 8 0]).1 ∧
      (get_info [NCM_MAGIC, List.replicate 8 0]).2 = [] ∧
      choose_decoder (from_path (List.replicate 8 0)) =
        Except.error DumpError.Format) :=
  ⟨by decide,
    c8_unrecognized_isolation [NCM_MAGIC, List.replicate 8 0]
      (List.replicate 8 0) (by decide)⟩

/-! ## Keystream periodicity (`QmcDump::map_l`) -/

/-- **C10, counterexample.** The key byte at offset `0x7FFF` is *not* unique
to that offset: the very next offset `0x8000` (which is strictly later)
produces the same key byte, because its reduced value `0x8000 % 0x7FFF = 1`
hits the same table index as `L = 0x7FFF`. -/
theorem c10_counterexample :
    0x7FFF < 0x8000 ∧ map_l 0x8000 = map_l 0x7FFF := by
  decide

/-- **C10, amended.** For every offset strictly greater than `0x7FFF` the key
byte equals the key byte at the reduced offset (`o % 0x7FFF`), so the
keystream beyond `0x7FFF` is periodic with period `0x7FFF`; the reduced
value used at any such later offset is strictly below `0x7FFF`, so the value
`L = 0x7FFF` itself is used only at offset `0x7FFF`, where the key byte is
`0x4A` — but that key *byte* does recur later (see the counterexample). -/
theorem c10_keystream_periodicity (o : Nat) (h : 0x7FFF < o) :
    map_l o = map_l (o % 0x7FFF) ∧
    map_l (o + 0x7FFF) = map_l o ∧
    map_l_v o < 0x7FFF ∧
    map_l 0x7FFF = 0x4A := by
  have hmodlt : o % 0x7FFF < 0x7FFF := Nat.mod_lt o (by omega)
  have hv : map_l_v o = o % 0x7FFF := by
    unfold map_l_v
    rw [if_pos h]
  have hv2 : map_l_v (o % 0x7FFF) = o % 0x7FFF := by
    unfold map_l_v
    rw [if_neg (by omega)]
  refine ⟨?_, ?_, ?_, by decide⟩
  · unfold map_l
    rw [hv, hv2]
  · have h2 : 0x7FFF < o + 0x7FFF := by omega
    have hv3 : map_l_v (o + 0x7FFF) = o % 0x7FFF := by
      unfold map_l_v
      rw [if_pos h2, Nat.add_mod_right]
    unfold map_l
    rw [hv3, hv]
  · rw [hv]
    exact hmodlt

theorem c10_keystream_periodicity_witness :
    0x7FFF < 0x9000 ∧
    (map_l 0x9000 = map_l (0x9000 % 0x7FFF) ∧
      map_l (0x9000 + 0x7FFF) = map_l 0x9000 ∧
      map_l_v 0x9000 < 0x7FFF ∧
      map_l 0x7FFF = 0x4A) :=
  ⟨by decide, c10_keystream_periodicity 0x9000 (by decide)⟩

end NcmdumpRs
